import Mathlib

/-!
Verification of the music-visualizer core: audio feature extraction
(`update_from_fft` in crates/music-visualizer/src/audio.rs and
`update_from_cpal` in crates/music-visualizer-native/src/audio_analysis.rs),
the particle per-frame pass (lib.rs `update_animation`, native app.rs `update`),
the fractal renderer's frame parameters and branch recursion (native ui.rs),
the ridgeline renderer's per-line smoothing and band-index computation
(unknown_pleasures.rs), and the WASM pseudo-random generator (lib.rs
`rand_float`).

Modelling conventions: `f32` values are embedded as `ℚ` (exact arithmetic;
the claims under study are structural, not about rounding), bytes (`u8`) as
`ℕ`, `u32`/`usize` as `ℕ` with explicit saturation where a Rust cast
saturates.  `f32::sqrt` and `f32::powf` are not rational, so functions whose
source applies them take the square-root / power-curve map as an explicit
function parameter; theorems either quantify over it or pin only the values
the source actually evaluates.
-/

/-- Positive part of a rational, `max q 0`; models the
`if diff > 0.0 { diff } else { 0.0 }` pattern of both flux computations. -/
def posPartQ (q : ℚ) : ℚ := max q 0

/-- State of the WASM analyzer `AudioAnalysis` (crates/music-visualizer/src/audio.rs,
lines 8-37).  Field-for-field translation; `frequency_data`/`time_data` are the
retained `Vec<u8>` buffers.  Note: this struct has no previous-frame snapshot
field. -/
structure AudioAnalysisW where
  bass : ℚ
  low_mid : ℚ
  mid : ℚ
  high_mid : ℚ
  treble : ℚ
  volume : ℚ
  peak : ℚ
  beat : Bool
  beat_intensity : ℚ
  spectral_centroid : ℚ
  spectral_flux : ℚ
  smooth_bass : ℚ
  smooth_mid : ℚ
  smooth_treble : ℚ
  smooth_volume : ℚ
  frequency_data : List ℕ
  time_data : List ℕ
  deriving DecidableEq

/-- State of the native analyzer `AudioAnalysis`
(crates/music-visualizer-native/src/audio_analysis.rs, lines 4-25).  It keeps
`f32` buffers and an explicit `prev_frequency_data` snapshot. -/
structure AudioAnalysisN where
  bass : ℚ
  low_mid : ℚ
  mid : ℚ
  high_mid : ℚ
  treble : ℚ
  volume : ℚ
  peak : ℚ
  beat : Bool
  beat_intensity : ℚ
  spectral_centroid : ℚ
  spectral_flux : ℚ
  smooth_bass : ℚ
  smooth_mid : ℚ
  smooth_treble : ℚ
  smooth_volume : ℚ
  frequency_data : List ℚ
  time_data : List ℚ
  prev_frequency_data : List ℚ
  deriving DecidableEq

/-- The closure `calc_band_avg` of `update_from_fft` (audio.rs lines 64-70):
mean of `frequency_data[lo..hi]` normalized by 255; an empty range yields 0.
In the source all ranges are within bounds (`hi ≤ len`), so `drop`/`take`
extracts exactly the slice. -/
def calcBandAvg (freq : List ℕ) (lo hi : ℕ) : ℚ :=
  if hi ≤ lo then 0
  else (((freq.drop lo).take (hi - lo)).map (fun x => (x : ℚ))).sum / (((hi - lo : ℕ) : ℚ) * 255)

/-- Sum of positive-only differences over `new.zip(old)` (audio.rs lines
110-116); `zip` stops at the shorter list, as in Rust. -/
def posDiffSum : List ℕ → List ℕ → ℚ
  | [], _ => 0
  | _ :: _, [] => 0
  | n :: ns, o :: os => posPartQ ((n : ℚ) - (o : ℚ)) + posDiffSum ns os

/-- Total energy `frequency_data.iter().map(|&x| x as f32).sum()`
(audio.rs line 100). -/
def freqTotal (freq : List ℕ) : ℚ := (freq.map (fun x => (x : ℚ))).sum

/-- The weighted sum `Σ i · x_i` over the enumerated bins (audio.rs lines
102-105). -/
def weightedIdxSum (freq : List ℕ) : ℚ :=
  (freq.enum.map (fun p => (p.1 : ℚ) * (p.2 : ℚ))).sum

/-- RMS of the byte time buffer (audio.rs lines 79-85): samples centered on
128, mean square, square root (`sq` models `f32::sqrt`), normalized by 128.
For an empty buffer Rust produces NaN (0/0); here `ℚ` division by zero gives
0 — the claims under study never evaluate this case. -/
def fftRms (sq : ℚ → ℚ) (time : List ℕ) : ℚ :=
  sq ((time.map (fun x => ((x : ℚ) - 128) * ((x : ℚ) - 128))).sum / (time.length : ℚ)) / 128

/-- Peak of the byte time buffer (audio.rs lines 88-91): maximum of
`|x - 128|`, `unwrap_or(0.0)` on empty, normalized by 128.  Since every
`|x - 128| ≥ 0`, folding `max` from 0 agrees with the source's
`max_by`/`unwrap_or(0.0)`. -/
def fftPeak (time : List ℕ) : ℚ :=
  ((time.map (fun x => |(x : ℚ) - 128|)).foldr max 0) / 128

/-- The WASM extractor `AudioAnalysis::update_from_fft` (audio.rs lines
48-134), statement for statement.  The input buffers are stored into the
state FIRST (lines 49-50), then the length-0 early return fires (lines
52-55).  Beat detection (lines 93-97) reads `smooth_bass` before the
smoothing block (lines 119-124) runs.  The flux zip (lines 110-116) reads
`self.frequency_data`, which was already overwritten with the input at line
49. -/
def updateFromFFT (sq : ℚ → ℚ) (a0 : AudioAnalysisW)
    (frequency_data time_data : List ℕ) : AudioAnalysisW :=
  let a := { a0 with frequency_data := frequency_data, time_data := time_data }
  let len := frequency_data.length
  if len = 0 then a
  else
    let new_bass := calcBandAvg frequency_data 0 (len / 16)
    let new_low_mid := calcBandAvg frequency_data (len / 16) (len / 8)
    let new_mid := calcBandAvg frequency_data (len / 8) (len / 4)
    let new_high_mid := calcBandAvg frequency_data (len / 4) (len / 2)
    let new_treble := calcBandAvg frequency_data (len / 2) len
    let rms := fftRms sq time_data
    let peak := fftPeak time_data
    let bass_threshold : ℚ := 3/5
    let energy_jump := new_bass - a.smooth_bass
    let beat := decide (energy_jump > 1/10) && decide (new_bass > bass_threshold)
    let beat_intensity := if beat then min energy_jump 1 else 0
    let total_energy := freqTotal frequency_data
    let spectral_centroid :=
      if total_energy > 0 then weightedIdxSum frequency_data / total_energy / (len : ℚ)
      else a.spectral_centroid
    let flux := posDiffSum frequency_data a.frequency_data / ((len : ℚ) * 255)
    let smoothing : ℚ := 3/20
    { a with
      beat := beat
      beat_intensity := beat_intensity
      spectral_centroid := spectral_centroid
      spectral_flux := flux
      smooth_bass := a.smooth_bass + (new_bass - a.smooth_bass) * smoothing
      smooth_mid := a.smooth_mid + (new_mid - a.smooth_mid) * smoothing
      smooth_treble := a.smooth_treble + (new_treble - a.smooth_treble) * smoothing
      smooth_volume := a.smooth_volume + (rms - a.smooth_volume) * smoothing
      bass := new_bass
      low_mid := new_low_mid
      mid := new_mid
      high_mid := new_high_mid
      treble := new_treble
      volume := rms
      peak := peak }

/-- The closure `avg` of `update_from_cpal` (audio_analysis.rs lines 70-74):
mean absolute value over `buffer[lo..hi]`, 0 on an empty range. -/
def cpalAvg (buffer : List ℚ) (lo hi : ℕ) : ℚ :=
  if hi ≤ lo then 0
  else (((buffer.drop lo).take (hi - lo)).map (fun x => |x|)).sum / ((hi - lo : ℕ) : ℚ)

/-- The flux loop of `update_from_cpal` (audio_analysis.rs lines 53-59):
for each index of the new spectrum, positive part of `new[i] - prev[i]`,
with `prev_v = 0` past the end of the previous snapshot. -/
def cpalFlux : List ℚ → List ℚ → ℚ
  | [], _ => 0
  | x :: xs, [] => posPartQ x + cpalFlux xs []
  | x :: xs, p :: ps => posPartQ (x - p) + cpalFlux xs ps

/-- The native extractor `AudioAnalysis::update_from_cpal`
(audio_analysis.rs lines 36-92), statement for statement.  Note the order at
lines 82-88: the smoothed bands are updated FIRST, and `energy_jump` is then
`bass - smooth_bass` with the already-updated `smooth_bass`.  The snapshot
`prev_frequency_data` is replaced last (line 91), after the flux for this
frame was computed against the old snapshot. -/
def updateFromCpal (sq : ℚ → ℚ) (a : AudioAnalysisN) (buffer : List ℚ) : AudioAnalysisN :=
  let len := buffer.length
  if len = 0 then a
  else
    let rms := sq ((buffer.map (fun x => x * x)).sum / (len : ℚ))
    let smooth_volume := a.smooth_volume + (rms - a.smooth_volume) * (3/20)
    let peak := (buffer.map (fun x => |x|)).foldl max 0
    let new_freq := buffer.map (fun x => min (|x| * 255) 255)
    let flux := cpalFlux new_freq a.prev_frequency_data
    let band_size := len / 8
    let bass := cpalAvg buffer 0 (max band_size 1)
    let low_mid := cpalAvg buffer band_size (max (band_size * 2) (band_size + 1))
    let mid := cpalAvg buffer (band_size * 2) (max (band_size * 4) (band_size * 2 + 1))
    let high_mid := cpalAvg buffer (band_size * 4) (min (band_size * 6) len)
    let treble := cpalAvg buffer (band_size * 6) len
    let smooth_bass := a.smooth_bass + (bass - a.smooth_bass) * (3/20)
    let smooth_mid := a.smooth_mid + (mid - a.smooth_mid) * (3/20)
    let smooth_treble := a.smooth_treble + (treble - a.smooth_treble) * (3/20)
    let energy_jump := bass - smooth_bass
    let beat := decide (energy_jump > 1/10) && decide (bass > 3/10)
    let beat_intensity := if beat then min energy_jump 1 else 0
    { a with
      time_data := buffer
      volume := rms
      smooth_volume := smooth_volume
      peak := peak
      spectral_flux := flux
      frequency_data := new_freq
      bass := bass
      low_mid := low_mid
      mid := mid
      high_mid := high_mid
      treble := treble
      smooth_bass := smooth_bass
      smooth_mid := smooth_mid
      smooth_treble := smooth_treble
      beat := beat
      beat_intensity := beat_intensity
      prev_frequency_data := new_freq }

/-- The bass band value of the byte path: `calc_band_avg(0..len/16)`. -/
def fftBass (freq : List ℕ) : ℚ := calcBandAvg freq 0 (freq.length / 16)

/-- The bass band value of the raw-sample path: `avg(0..band_size.max(1))`. -/
def cpalBass (buf : List ℚ) : ℚ := cpalAvg buf 0 (max (buf.length / 8) 1)

/-- An all-zero WASM analyzer state (used as a concrete prior state). -/
def zeroW : AudioAnalysisW :=
  ⟨0, 0, 0, 0, 0, 0, 0, false, 0, 0, 0, 0, 0, 0, 0, [], []⟩

/-- An all-zero native analyzer state (used as a concrete prior state). -/
def zeroN : AudioAnalysisN :=
  ⟨0, 0, 0, 0, 0, 0, 0, false, 0, 0, 0, 0, 0, 0, 0, [], [], []⟩

/-- A beat particle.  Both crates define the identical struct
(`Particle` in crates/music-visualizer/src/lib.rs lines 277-284 and in
crates/music-visualizer-native/src/particle.rs lines 4-11): position,
velocity, life in (0,1], max-life, size, color (kept abstract as `ℕ`). -/
structure Particle where
  pos : ℚ × ℚ
  vel : ℚ × ℚ
  life : ℚ
  max_life : ℚ
  size : ℚ
  color : ℕ
  deriving DecidableEq

/-- `Particle::update` (identical in both crates): integrate position,
apply the 0.98 velocity damping, decrement life by `dt / max_life`. -/
def particleUpdate (dt : ℚ) (p : Particle) : Particle :=
  { p with
    pos := (p.pos.1 + p.vel.1 * dt, p.pos.2 + p.vel.2 * dt)
    vel := (p.vel.1 * (49/50), p.vel.2 * (49/50))
    life := p.life - dt / p.max_life }

/-- `Particle::is_alive`: `life > 0.0`. -/
def particleIsAlive (p : Particle) : Bool := decide (p.life > 0)

/-- The per-frame particle pass of the WASM app
(`MusicVisualizerApp::update_animation`, lib.rs lines 469-489): this frame's
spawned particles are pushed to the END of the vector, every particle is
updated, dead ones removed, then `while len > particle_count * 2 remove(0)`
drops elements from the FRONT (the oldest) until the length is at most
`2 * particle_count`. -/
def wasmParticleFrame (ps spawned : List Particle) (dt : ℚ) (particle_count : ℕ) :
    List Particle :=
  let updated := (ps ++ spawned).map (particleUpdate dt)
  let alive := updated.filter particleIsAlive
  if 2 * particle_count < alive.length then alive.drop (alive.length - 2 * particle_count)
  else alive

/-- The per-frame particle pass of the native app
(`MusicVisualizerNativeApp::update`, app.rs lines 316-331): spawned particles
pushed to the END, all updated, dead removed, then
`if len > particle_count { truncate(particle_count) }` keeps the FIRST
`particle_count` elements, i.e. removes from the END. -/
def nativeParticleFrame (ps spawned : List Particle) (dt : ℚ) (particle_count : ℕ) :
    List Particle :=
  let updated := (ps ++ spawned).map (particleUpdate dt)
  let alive := updated.filter particleIsAlive
  if particle_count < alive.length then alive.take particle_count
  else alive

/-- The configuration snapshot `VisualizerConfig`
(crates/music-visualizer-native/src/visualizer_config.rs lines 4-39; the
WASM copy in lib.rs lines 140-185 is identical).  `f32` fields are `ℚ`,
`u32` fields `ℕ`, `Color32` fields abstract `ℕ` handles. -/
structure VisualizerConfig where
  base_zoom : ℚ
  base_width : ℚ
  base_depth : ℕ
  base_brightness : ℚ
  zoom_bass_mult : ℚ
  width_bass_mult : ℚ
  depth_complexity_mult : ℚ
  brightness_treble_mult : ℚ
  rotation_beat_mult : ℚ
  auto_rotate : Bool
  rotation_speed : ℚ
  pulse_on_beat : Bool
  color_cycle : Bool
  color_cycle_speed : ℚ
  base_color : ℕ
  accent_color : ℕ
  background_color : ℕ
  glow_intensity : ℚ
  particle_count : ℕ
  up_line_thickness : ℚ
  up_perspective : ℚ
  up_vertical_scale : ℚ
  up_line_length : ℚ
  up_zoom : ℚ
  up_isometric_rotate : Bool
  up_rotation_deg : ℚ
  up_bass_mult : ℚ
  up_mid_mult : ℚ
  up_treble_mult : ℚ
  up_max_lines : ℕ
  up_samples : ℕ
  up_freq_curve_exponent : ℚ
  up_monochrome : Bool
  up_smoothing : ℚ
  deriving DecidableEq

/-- Rust's `as u32` cast on an `f32`: truncation toward zero, saturating at
0 below and at `u32::MAX` above. -/
def f32CastU32 (q : ℚ) : ℕ := min (max ⌊q⌋ 0).toNat (2 ^ 32 - 1)

/-- The four per-frame scalars computed at the top of `draw_fractal`
(ui.rs lines 35-38). -/
structure FractalFrameParams where
  zoom : ℚ
  width : ℚ
  depth : ℕ
  brightness : ℚ
  deriving DecidableEq

/-- `MusicVisualizerNativeApp::draw_fractal`, lines 35-38: the frame
parameters derived from the config and the analyzer state.  The depth is
`(base_depth as f32 + spectral_centroid * depth_complexity_mult) as u32` —
a truncating cast, not a rounding. -/
def drawFractalParams (cfg : VisualizerConfig) (audio : AudioAnalysisN) :
    FractalFrameParams :=
  { zoom := cfg.base_zoom + audio.smooth_bass * cfg.zoom_bass_mult
    width := cfg.base_width + audio.smooth_bass * cfg.width_bass_mult
    depth := f32CastU32 ((cfg.base_depth : ℚ) + audio.spectral_centroid * cfg.depth_complexity_mult)
    brightness := cfg.base_brightness + audio.smooth_treble * cfg.brightness_treble_mult }

/-- Rounding to the nearest integer, as the specification's word "round"
states it (half rounds up); used only to compare against the source's
truncating cast. -/
def roundNearest (q : ℚ) : ℤ := ⌊q + 1/2⌋

/-- Call count of `MusicVisualizerNativeApp::draw_branch` (ui.rs lines
65-105), counting every invocation including the root.  A call returns
immediately when `depth == 0 || length < 2.0` (line 77); otherwise it makes
exactly two recursive calls at `depth - 1` with child length
`length * f` where `f = 0.65 + 0.1 * smooth_treble` (line 100).  The
clip-rect test (lines 84-89) can only cause an additional early return, so
this function is an exact count without pruning and an upper bound on the
source's count with pruning.  `depth` is a `u32`; the guard fires before any
decrement, so the recursion never needs a depth below 0. -/
def drawBranchCalls (f : ℚ) : ℕ → ℚ → ℕ
  | 0, _ => 1
  | d + 1, len =>
    if len < 2 then 1
    else 1 + drawBranchCalls f d (len * f) + drawBranchCalls f d (len * f)

/-- The smoothing coefficient actually used by the ridgeline renderer:
`cfg.up_smoothing.clamp(0.0, 1.0)` (unknown_pleasures.rs line 64). -/
def upSmoothingCoeff (c : ℚ) : ℚ := min (max c 0) 1

/-- One ridgeline temporal smoothing step (unknown_pleasures.rs line 65):
`amp = last + (raw_amp - last) * smoothing`. -/
def upSmoothStep (k raw last : ℚ) : ℚ := last + (raw - last) * k

/-- The per-line smoothed amplitude after `n` frames of the constant raw
input `raw`, starting from `s0` (the persisted `last_amplitudes[i]`). -/
def upSmoothN (k raw s0 : ℚ) : ℕ → ℚ
  | 0 => s0
  | n + 1 => upSmoothStep k raw (upSmoothN k raw s0 n)

/-- The frequency-bin sub-range for ridgeline line `i`
(unknown_pleasures.rs lines 20 and 41-48).  `pw` models the power curve
`x ↦ x.powf(exp)` with `exp = up_freq_curve_exponent.max(0.001)` (`powf` is
not rational, so it is a parameter; theorems pin only the values the source
evaluates).  `freq_len = frequency_data.len().max(1)`; the `as usize` casts
saturate below at 0, which `Int.toNat` reproduces.  The draw loop then reads
`frequency_data[b]` for every `b` in `start..end`. -/
def upBandRange (pw : ℚ → ℚ) (bands i freqLenActual : ℕ) : ℕ × ℕ :=
  let freq_len := max freqLenActual 1
  let f0 : ℚ := (i : ℚ) / (bands : ℚ)
  let f1 : ℚ := ((i + 1 : ℕ) : ℚ) / (bands : ℚ)
  let idx0 := (⌊pw f0 * (freq_len : ℚ)⌋).toNat
  let idx1 := (⌊pw f1 * (freq_len : ℚ)⌋).toNat
  let start := min idx0 (freq_len - 1)
  let e0 := min idx1 freq_len
  let e := if e0 ≤ start then min (start + 1) freq_len else e0
  (start, e)

/-- The band-averaging loop `for b in start..end { sum += frequency_data[b] }`
indexes out of bounds — a Rust panic — exactly when the range is non-empty
and reaches an index at or past the actual buffer length. -/
def upBandIndexingPanics (pw : ℚ → ℚ) (bands i freqLenActual : ℕ) : Prop :=
  (upBandRange pw bands i freqLenActual).1 < (upBandRange pw bands i freqLenActual).2 ∧
  freqLenActual < (upBandRange pw bands i freqLenActual).2

/-- 64-bit wrapping addition. -/
def add64 (a b : ℕ) : ℕ := (a + b) % 2 ^ 64

/-- 64-bit left rotation (arguments in range: `n < 2^64`, `0 < r < 64`). -/
def rotl64 (n r : ℕ) : ℕ := ((n <<< r) % 2 ^ 64) ||| (n >>> (64 - r))

/-- The four 64-bit SipHash state words. -/
structure SipState where
  v0 : ℕ
  v1 : ℕ
  v2 : ℕ
  v3 : ℕ
  deriving DecidableEq

/-- One SipHash round (the standard SIPROUND used by Rust's
`std::hash::SipHasher13`, the algorithm behind `DefaultHasher`). -/
def sipRound (s : SipState) : SipState :=
  let v0 := add64 s.v0 s.v1
  let v1a := rotl64 s.v1 13
  let v1b := v1a ^^^ v0
  let v0a := rotl64 v0 32
  let v2 := add64 s.v2 s.v3
  let v3a := rotl64 s.v3 16
  let v3b := v3a ^^^ v2
  let v0b := add64 v0a v3b
  let v3c := rotl64 v3b 21
  let v3d := v3c ^^^ v0b
  let v2a := add64 v2 v1b
  let v1c := rotl64 v1b 17
  let v1d := v1c ^^^ v2a
  let v2b := rotl64 v2a 32
  ⟨v0b, v1d, v2b, v3d⟩

/-- Hashing one `u64` with `DefaultHasher::new()` (SipHash-1-3, keys
`k0 = k1 = 0`), as `rand_float` does (lib.rs lines 318-323): the seed's 8
little-endian bytes form a single message block `m`, followed by the final
block holding the message length 8 in the top byte, then 3 finalization
rounds. -/
def defaultHasherU64 (m : ℕ) : ℕ :=
  let s0 : SipState :=
    ⟨0x736f6d6570736575, 0x646f72616e646f6d, 0x6c7967656e657261, 0x7465646279746573⟩
  let s1 := { s0 with v3 := s0.v3 ^^^ m }
  let s2 := sipRound s1
  let s3 := { s2 with v0 := s2.v0 ^^^ m }
  let b : ℕ := 8 <<< 56
  let s4 := { s3 with v3 := s3.v3 ^^^ b }
  let s5 := sipRound s4
  let s6 := { s5 with v0 := s5.v0 ^^^ b }
  let s7 := { s6 with v2 := s6.v2 ^^^ 0xff }
  let s8 := sipRound (sipRound (sipRound s7))
  s8.v0 ^^^ s8.v1 ^^^ s8.v2 ^^^ s8.v3

/-- One step of the WASM `rand_float` generator (lib.rs lines 310-325):
the thread-local `u64` seed is replaced by its `DefaultHasher` hash. -/
def randStep (seed : ℕ) : ℕ := defaultHasherU64 (seed % 2 ^ 64)

/-- The value `rand_float` returns for a just-advanced seed:
`*s as f32 / u64::MAX as f32` (exact division in the `ℚ` model). -/
def randFloatVal (seed : ℕ) : ℚ := (seed : ℚ) / ((2 ^ 64 - 1 : ℕ) : ℚ)

/-- A run of the generator: the seed sequence observed across calls within
one program run, starting from the constant initializer 12345 (lib.rs line
315) and advanced by `randStep` on every call. -/
def IsRandRun (s : ℕ → ℕ) : Prop :=
  s 0 = 12345 ∧ ∀ n, s (n + 1) = randStep (s n)

/-- The canonical run: iterating `randStep` from 12345. -/
def randRunFn (n : ℕ) : ℕ := randStep^[n] 12345

/-- `VisualizerConfig::default()` (visualizer_config.rs lines 41-79; the WASM
copy in lib.rs lines 187-228 has the same values).  Color fields are kept as
abstract handles (0). -/
def defaultConfig : VisualizerConfig :=
  { base_zoom := 1/10, base_width := 1, base_depth := 16, base_brightness := 4/5,
    zoom_bass_mult := 1/10, width_bass_mult := 3/10, depth_complexity_mult := 4,
    brightness_treble_mult := 2/5, rotation_beat_mult := 1/10,
    auto_rotate := true, rotation_speed := 1, pulse_on_beat := true,
    color_cycle := true, color_cycle_speed := 1/10,
    base_color := 0, accent_color := 0, background_color := 0,
    glow_intensity := 1/2, particle_count := 50,
    up_line_thickness := 3/2, up_perspective := 3/5, up_vertical_scale := 1,
    up_line_length := 1, up_zoom := 1, up_isometric_rotate := false,
    up_rotation_deg := 15, up_bass_mult := 6/5, up_mid_mult := 3/5,
    up_treble_mult := 1/5, up_max_lines := 80, up_samples := 120,
    up_freq_curve_exponent := 5/2, up_monochrome := true, up_smoothing := 3/20 }

/-- Positive-only differences of a list against itself vanish. -/
theorem posDiffSum_self (l : List ℕ) : posDiffSum l l = 0 := by
  induction l with
  | nil => rfl
  | cons x xs ih => simp [posDiffSum, posPartQ, ih]

/-- C1 counterexample: calling `update_from_fft` with empty arrays REPLACES
`frequency_data` (and `time_data`) with the empty input before the length-0
early return fires, so a state whose `frequency_data` was `[7]` does not keep
it — contradicting "every field ... including frequency_data and time_data,
is left exactly at its previous value".  (The source's own unit test
`update_from_fft_handles_empty` asserts the new length is 0.) -/
theorem update_from_fft_empty_replaces_buffers :
    ({ zeroW with frequency_data := [7] } : AudioAnalysisW).frequency_data = [7] ∧
    (updateFromFFT id { zeroW with frequency_data := [7] } [] []).frequency_data = [] :=
  ⟨rfl, rfl⟩

/-- C1 (amended): on empty input neither extractor panics; the raw-sample
path `update_from_cpal` leaves the whole state unchanged, and the byte path
`update_from_fft` leaves every field unchanged EXCEPT `frequency_data` and
`time_data`, which are replaced with copies of the (empty) inputs. -/
theorem analyze_empty_input_noop (sq sq2 : ℚ → ℚ) (a : AudioAnalysisW)
    (b : AudioAnalysisN) (time : List ℕ) :
    updateFromFFT sq a [] time = { a with frequency_data := [], time_data := time } ∧
    updateFromCpal sq2 b [] = b :=
  ⟨rfl, rfl⟩

/-- C2: on the byte path, `update_from_fft` stores the new spectrum into
`self.frequency_data` before the flux zip runs, so the flux compares the
current frame against itself and is 0 on every non-empty frame — here even
for a spectrum that jumped from `[0]` to `[255]`, where the claimed
current-minus-previous flux is 1.  The raw-sample path keeps a genuine
snapshot: its first frame (previous snapshot empty) reports flux 255, and a
second identical frame reports 0. -/
theorem fft_flux_compares_frame_to_itself :
    (updateFromFFT id { zeroW with frequency_data := [0] } [255] [0]).spectral_flux = 0 ∧
    posDiffSum [255] [0] / ((1 : ℚ) * 255) = 1 ∧
    (updateFromCpal id zeroN [1]).spectral_flux = 255 ∧
    (updateFromCpal id (updateFromCpal id zeroN [1]) [1]).spectral_flux = 0 := by
  refine ⟨?_, by norm_num [posDiffSum, posPartQ], ?_, ?_⟩ <;>
    norm_num [updateFromFFT, updateFromCpal, posDiffSum, posPartQ, cpalFlux, zeroW, zeroN]

/-- C9: the byte path's spectral centroid keeps exactly its previous value
whenever the total bin energy is zero (also covering the empty-input early
return), and is recomputed as the energy-weighted mean bin index normalized
by total energy and bin count exactly when the total energy is strictly
positive. -/
theorem fft_centroid_silence_guard (sq : ℚ → ℚ) (a : AudioAnalysisW)
    (freq time : List ℕ) :
    (freqTotal freq = 0 →
      (updateFromFFT sq a freq time).spectral_centroid = a.spectral_centroid) ∧
    (0 < freqTotal freq →
      (updateFromFFT sq a freq time).spectral_centroid
        = weightedIdxSum freq / freqTotal freq / (freq.length : ℚ)) := by
  by_cases hf : freq = []
  · subst hf
    refine ⟨fun _ => rfl, fun h0 => absurd h0 ?_⟩
    simp [freqTotal]
  · have hlen : ¬ freq.length = 0 := fun hc => hf (List.length_eq_zero.mp hc)
    constructor
    · intro h0
      simp only [updateFromFFT]
      rw [if_neg hlen]
      simp [h0]
    · intro hpos
      simp only [updateFromFFT]
      rw [if_neg hlen]
      simp [hpos]

/-- C9 witness: with previous centroid 7, an all-zero spectrum keeps it at 7,
and a positive-energy spectrum recomputes it by the formula. -/
theorem fft_centroid_silence_guard_witness :
    (updateFromFFT id { zeroW with spectral_centroid := 7 } [0] []).spectral_centroid
      = ({ zeroW with spectral_centroid := 7 } : AudioAnalysisW).spectral_centroid ∧
    (updateFromFFT id { zeroW with spectral_centroid := 7 } [255] []).spectral_centroid
      = weightedIdxSum [255] / freqTotal [255] / (([255] : List ℕ).length : ℚ) :=
  ⟨(fft_centroid_silence_guard id { zeroW with spectral_centroid := 7 } [0] []).1
      (by norm_num [freqTotal]),
   (fft_centroid_silence_guard id { zeroW with spectral_centroid := 7 } [255] []).2
      (by norm_num [freqTotal])⟩

/-- C3 counterexample: raw-sample path with prior smoothed bass 0 and a
buffer whose bass band steps to 0.5.  The claim predicts
`beat_intensity = min(0.5 - 0, 1) = 0.5`, but `update_from_cpal` updates
`smooth_bass` (to 0.075) before computing `energy_jump`, so the code yields
`beat_intensity = 0.5 - 0.075 = 0.425`. -/
theorem cpal_beat_uses_post_update_smoothing :
    (updateFromCpal id zeroN [1/2, 0, 0, 0, 0, 0, 0, 0]).beat = true ∧
    (updateFromCpal id zeroN [1/2, 0, 0, 0, 0, 0, 0, 0]).beat_intensity = 17/40 ∧
    min (cpalBass [1/2, 0, 0, 0, 0, 0, 0, 0] - zeroN.smooth_bass) 1 = 1/2 ∧
    (17 : ℚ)/40 ≠ 1/2 := by
  refine ⟨?_, ?_, ?_, by norm_num⟩ <;>
    norm_num [updateFromCpal, cpalBass, cpalAvg, zeroN, abs_of_nonneg, min_def]

/-- C3 (amended): on the byte path the beat rule is as claimed — beat fires
iff `energy_jump > 0.1` and `bass > 0.6` with `energy_jump` measured against
the smoothed bass from BEFORE this frame's smoothing update.  On the
raw-sample path the floor is 0.3 but `energy_jump` is measured against the
smoothed bass AFTER this frame's update, i.e.
`bass - (smooth_bass + (bass - smooth_bass)·0.15)`; `beat_intensity` is
`min(energy_jump, 1)` when firing and 0 otherwise on both paths. -/
theorem beat_detection_smoothed_reference (sq sq2 : ℚ → ℚ) (a : AudioAnalysisW)
    (b : AudioAnalysisN) (freq time : List ℕ) (buf : List ℚ) :
    (freq ≠ [] →
      (((updateFromFFT sq a freq time).beat = true ↔
          (1/10 < fftBass freq - a.smooth_bass ∧ 3/5 < fftBass freq)) ∧
        (updateFromFFT sq a freq time).beat_intensity =
          (if 1/10 < fftBass freq - a.smooth_bass ∧ 3/5 < fftBass freq
           then min (fftBass freq - a.smooth_bass) 1 else 0))) ∧
    (buf ≠ [] →
      (((updateFromCpal sq2 b buf).beat = true ↔
          (1/10 < cpalBass buf - (b.smooth_bass + (cpalBass buf - b.smooth_bass) * (3/20)) ∧
           3/10 < cpalBass buf)) ∧
        (updateFromCpal sq2 b buf).beat_intensity =
          (if 1/10 < cpalBass buf - (b.smooth_bass + (cpalBass buf - b.smooth_bass) * (3/20)) ∧
              3/10 < cpalBass buf
           then min (cpalBass buf - (b.smooth_bass + (cpalBass buf - b.smooth_bass) * (3/20))) 1
           else 0))) := by
  constructor
  · intro hf
    have hlen : ¬ freq.length = 0 := fun hc => hf (List.length_eq_zero.mp hc)
    simp only [updateFromFFT]
    rw [if_neg hlen]
    constructor
    · simp [fftBass, Bool.and_eq_true, decide_eq_true_eq]
    · simp [fftBass, Bool.and_eq_true, decide_eq_true_eq]
  · intro hb
    have hlen : ¬ buf.length = 0 := fun hc => hb (List.length_eq_zero.mp hc)
    simp only [updateFromCpal]
    rw [if_neg hlen]
    constructor
    · simp [cpalBass, Bool.and_eq_true, decide_eq_true_eq]
    · simp [cpalBass, Bool.and_eq_true, decide_eq_true_eq]

/-- C3 witness: the beat rule instantiated on concrete non-empty buffers on
both paths. -/
theorem beat_detection_smoothed_reference_witness :
    ((updateFromFFT id zeroW [255] []).beat = true ↔
      (1/10 < fftBass [255] - zeroW.smooth_bass ∧ 3/5 < fftBass [255])) ∧
    ((updateFromCpal id zeroN [1]).beat = true ↔
      (1/10 < cpalBass [1] - (zeroN.smooth_bass + (cpalBass [1] - zeroN.smooth_bass) * (3/20)) ∧
       3/10 < cpalBass [1])) :=
  ⟨((beat_detection_smoothed_reference id id zeroW zeroN [255] [] [1]).1
      (by simp)).1,
   ((beat_detection_smoothed_reference id id zeroW zeroN [255] [] [1]).2
      (by simp)).1⟩

/-- C4 counterexample: native path, two live particles (positions (1,0) and
(2,0), spawned in that order) with a cap of 1 and `dt = 0`.  The claim's
FIFO eviction would keep the newer particle at (2,0); the code's
`truncate(target)` keeps the FIRST (oldest) element, at (1,0), even though
the newer one is still alive. -/
theorem native_cull_keeps_oldest :
    nativeParticleFrame
        [⟨(1, 0), (0, 0), 1, 1, 3, 0⟩, ⟨(2, 0), (0, 0), 1, 1, 3, 0⟩] [] 0 1
      = [⟨(1, 0), (0, 0), 1, 1, 3, 0⟩] ∧
    particleIsAlive (particleUpdate 0 ⟨(2, 0), (0, 0), 1, 1, 3, 0⟩) = true := by
  constructor <;>
    norm_num [nativeParticleFrame, particleUpdate, particleIsAlive, List.filter]

/-- C4 (amended): after update and dead-particle removal, the native path
keeps the FIRST `particle_count` live particles — the oldest survive and the
newest excess is dropped — while the WASM path drops from the FRONT (oldest
first) but only down to a cap of `2 × particle_count`. -/
theorem particle_cap_eviction_shape (ps spawned : List Particle) (dt : ℚ) (count : ℕ) :
    nativeParticleFrame ps spawned dt count
      = (((ps ++ spawned).map (particleUpdate dt)).filter particleIsAlive).take count ∧
    wasmParticleFrame ps spawned dt count
      = (((ps ++ spawned).map (particleUpdate dt)).filter particleIsAlive).drop
          ((((ps ++ spawned).map (particleUpdate dt)).filter particleIsAlive).length
            - 2 * count) := by
  simp only [nativeParticleFrame, wasmParticleFrame]
  constructor
  · split
    · rfl
    · rename_i h
      rw [List.take_of_length_le (le_of_not_lt h)]
  · split
    · rfl
    · rename_i h
      rw [Nat.sub_eq_zero_of_le (le_of_not_lt h), List.drop_zero]

/-- C5 counterexample: with the default config (`base_depth = 16`,
`depth_complexity_mult = 4`) and `spectral_centroid = 0.9` the depth term is
19.6; the code's `as u32` cast truncates it to 19, while rounding to the
nearest integer gives 20. -/
theorem fractal_depth_truncated_not_rounded :
    ((drawFractalParams defaultConfig { zeroN with spectral_centroid := 9/10 }).depth : ℤ)
      ≠ roundNearest ((defaultConfig.base_depth : ℚ)
          + defaultConfig.depth_complexity_mult * (9/10)) := by
  norm_num [drawFractalParams, f32CastU32, roundNearest, defaultConfig, zeroN,
    min_def, max_def]

/-- C5 (amended): the fractal frame parameters are
`zoom = base_zoom + zoom_bass_mult·smooth_bass`,
`width = base_width + width_bass_mult·smooth_bass`,
`brightness = base_brightness + brightness_treble_mult·smooth_treble`, and
`depth` is the depth term TRUNCATED toward zero by the `as u32` cast
(floor for a non-negative term, saturating at 0 and `u32::MAX`), not rounded
to the nearest integer. -/
theorem fractal_frame_params_formulas (cfg : VisualizerConfig) (audio : AudioAnalysisN) :
    (drawFractalParams cfg audio).zoom
      = cfg.base_zoom + cfg.zoom_bass_mult * audio.smooth_bass ∧
    (drawFractalParams cfg audio).width
      = cfg.base_width + cfg.width_bass_mult * audio.smooth_bass ∧
    (drawFractalParams cfg audio).brightness
      = cfg.base_brightness + cfg.brightness_treble_mult * audio.smooth_treble ∧
    (0 ≤ (cfg.base_depth : ℚ) + cfg.depth_complexity_mult * audio.spectral_centroid →
      ((drawFractalParams cfg audio).depth : ℤ)
        = min ⌊(cfg.base_depth : ℚ) + cfg.depth_complexity_mult * audio.spectral_centroid⌋
            (2 ^ 32 - 1)) ∧
    ((cfg.base_depth : ℚ) + cfg.depth_complexity_mult * audio.spectral_centroid < 0 →
      (drawFractalParams cfg audio).depth = 0) := by
  refine ⟨by simp [drawFractalParams, mul_comm], by simp [drawFractalParams, mul_comm],
    by simp [drawFractalParams, mul_comm], ?_, ?_⟩
  · intro h
    rw [mul_comm cfg.depth_complexity_mult audio.spectral_centroid] at h ⊢
    have hfl : 0 ≤ ⌊(cfg.base_depth : ℚ) + audio.spectral_centroid * cfg.depth_complexity_mult⌋ :=
      Int.floor_nonneg.mpr h
    simp only [drawFractalParams, f32CastU32]
    rw [max_eq_left hfl]
    push_cast [Int.toNat_of_nonneg hfl]
    norm_num
  · intro h
    rw [mul_comm cfg.depth_complexity_mult audio.spectral_centroid] at h
    have hfl : ⌊(cfg.base_depth : ℚ) + audio.spectral_centroid * cfg.depth_complexity_mult⌋ < 0 :=
      Int.floor_lt.mpr (by exact_mod_cast h)
    simp only [drawFractalParams, f32CastU32]
    rw [max_eq_right (le_of_lt hfl)]
    simp

/-- C5 witness: the formulas instantiated at the default config and the
all-zero analyzer state (depth term 16 ≥ 0). -/
theorem fractal_frame_params_formulas_witness :
    ((drawFractalParams defaultConfig zeroN).depth : ℤ)
      = min ⌊(defaultConfig.base_depth : ℚ)
              + defaultConfig.depth_complexity_mult * zeroN.spectral_centroid⌋ (2 ^ 32 - 1) ∧
    (drawFractalParams defaultConfig zeroN).zoom
      = defaultConfig.base_zoom + defaultConfig.zoom_bass_mult * zeroN.smooth_bass :=
  ⟨(fractal_frame_params_formulas defaultConfig zeroN).2.2.2.1
      (by norm_num [defaultConfig, zeroN]),
   (fractal_frame_params_formulas defaultConfig zeroN).1⟩

/-- The call count of the branch recursion is bounded by `2^(d+1) - 1`
regardless of the length-decay factor. -/
theorem drawBranchCalls_le (f : ℚ) : ∀ (d : ℕ) (len : ℚ),
    drawBranchCalls f d len ≤ 2 ^ (d + 1) - 1 := by
  intro d
  induction d with
  | zero => intro len; simp [drawBranchCalls]
  | succ d ih =>
    intro len
    have hx : 1 ≤ 2 ^ (d + 1) := Nat.one_le_pow _ _ (by norm_num)
    have hpow : (2 : ℕ) ^ (d + 1 + 1) = 2 ^ (d + 1) * 2 := pow_succ 2 (d + 1)
    simp only [drawBranchCalls]
    split
    · omega
    · have h1 := ih (len * f)
      omega

/-- C6: the branch recursion terminates (the model is a total structural
recursion on the `u32` depth counter): a call stops immediately when either
depth-remaining is 0 or the length is below 2.0 pixels, children always run
at depth one less — never below 0 — and the total number of calls from any
root is at most `2^(depth+1) - 1`; in particular at depth 16 with root
length 100 it is at most `2^17`, for every length-decay factor (i.e. every
audio state). -/
theorem draw_branch_recursion_bounded (f len : ℚ) (d : ℕ) :
    drawBranchCalls f d len ≤ 2 ^ (d + 1) - 1 ∧
    drawBranchCalls f 16 100 ≤ 2 ^ 17 ∧
    ((d = 0 ∨ len < 2) → drawBranchCalls f d len = 1) := by
  refine ⟨drawBranchCalls_le f d len, ?_, ?_⟩
  · have := drawBranchCalls_le f 16 100
    omega
  · rintro (rfl | hlen)
    · rfl
    · cases d with
      | zero => rfl
      | succ d => simp [drawBranchCalls, if_pos hlen]

/-- C6 witness: the bound applied at depth 0 (guard `d = 0` discharged
concretely) and at the claim's depth-16 root. -/
theorem draw_branch_recursion_bounded_witness :
    drawBranchCalls 0 0 5 ≤ 2 ^ (0 + 1) - 1 ∧ drawBranchCalls 0 16 100 ≤ 2 ^ 17 ∧
    drawBranchCalls 0 0 5 = 1 :=
  ⟨(draw_branch_recursion_bounded 0 5 0).1, (draw_branch_recursion_bounded 0 5 0).2.1,
   (draw_branch_recursion_bounded 0 5 0).2.2 (Or.inl rfl)⟩

/-- Closed form of the distance to the raw value: each smoothing step scales
it by `(1 - k)`. -/
theorem upSmoothN_sub_raw (k raw s0 : ℚ) : ∀ n : ℕ,
    upSmoothN k raw s0 n - raw = (s0 - raw) * (1 - k) ^ n := by
  intro n
  induction n with
  | zero => simp [upSmoothN]
  | succ n ih =>
    have hstep : upSmoothN k raw s0 (n + 1) - raw
        = (upSmoothN k raw s0 n - raw) * (1 - k) := by
      simp only [upSmoothN, upSmoothStep]
      ring
    rw [hstep, ih, pow_succ, mul_assoc]

/-- C7 (amended): under constant raw input the per-line smoothed value's
distance to the raw value satisfies the claimed bound with EQUALITY in exact
arithmetic — `|smoothed_N - raw| = |smoothed_0 - raw| · (1-k)^N` (so `≤`
holds, strict `<` does not) — and the approach is monotone; `k` is the
clamped coefficient `up_smoothing.clamp(0,1)` the code actually applies. -/
theorem ridgeline_smoothing_convergence (c raw s0 : ℚ) (n : ℕ) :
    |upSmoothN (upSmoothingCoeff c) raw s0 n - raw|
      = |s0 - raw| * (1 - upSmoothingCoeff c) ^ n ∧
    |upSmoothN (upSmoothingCoeff c) raw s0 (n + 1) - raw|
      ≤ |upSmoothN (upSmoothingCoeff c) raw s0 n - raw| := by
  have hk0 : 0 ≤ upSmoothingCoeff c := le_min (le_max_right c 0) zero_le_one
  have hk1 : upSmoothingCoeff c ≤ 1 := min_le_right _ _
  have h1k : 0 ≤ 1 - upSmoothingCoeff c := by linarith
  have habs : ∀ m : ℕ, |upSmoothN (upSmoothingCoeff c) raw s0 m - raw|
      = |s0 - raw| * (1 - upSmoothingCoeff c) ^ m := by
    intro m
    rw [upSmoothN_sub_raw, abs_mul, abs_pow, abs_of_nonneg h1k]
  refine ⟨habs n, ?_⟩
  rw [habs n, habs (n + 1), pow_succ, ← mul_assoc]
  have hbase : 0 ≤ |s0 - raw| * (1 - upSmoothingCoeff c) ^ n :=
    mul_nonneg (abs_nonneg _) (pow_nonneg h1k n)
  nlinarith

/-- C7 counterexample: `k = 0.15`, raw value 1, starting smoothed value 0,
one frame: the distance is exactly `0.85 = |0 - 1|·(1 - 0.15)^1`, so the
claimed STRICT inequality fails. -/
theorem ridgeline_smoothing_strict_bound_fails :
    ¬ (|upSmoothN (upSmoothingCoeff (3/20)) 1 0 1 - 1|
        < |(0 : ℚ) - 1| * (1 - upSmoothingCoeff (3/20)) ^ 1) := by
  norm_num [upSmoothN, upSmoothStep, upSmoothingCoeff, min_def, max_def, abs]

/-- With empty frequency data (`freq_len.max(1) = 1`) and one configured
line, any power curve with `pw 0 = 0` and `pw 1 = 1` — as `x ↦ x.powf(exp)`
is for every positive exponent — yields the band range `(0, 1)`. -/
theorem upBandRange_one_line_empty (pw : ℚ → ℚ) (h0 : pw 0 = 0) (h1 : pw 1 = 1) :
    upBandRange pw 1 0 0 = (0, 1) := by
  simp [upBandRange, h0, h1]

/-- C8: with `audio.frequency_data` empty (exactly the state
`update_from_fft(&[], &[])` leaves behind, per its own unit test) and
`up_max_lines = 1`, the ridgeline draw loop computes the band range
`start = 0, end = 1` and therefore executes `frequency_data[0]` on an empty
vector — an index-out-of-bounds panic, contradicting the no-panic guarantee.
The power curve is instantiated with the identity, which agrees with
`x ↦ x.powf(exp)` (any `exp > 0`) at the only two points evaluated here,
0 and 1. -/
theorem ridgeline_empty_frequency_oob :
    upBandIndexingPanics (fun q => q) 1 0 0 := by
  unfold upBandIndexingPanics
  rw [upBandRange_one_line_empty (fun q => q) rfl rfl]
  exact ⟨Nat.zero_lt_one, Nat.zero_lt_one⟩

/-- C10: the `rand_float` seed evolution is a pure function of the previous
seed — any two runs (seed sequences starting at the constant 12345 and
advanced by the `DefaultHasher` step on every call) coincide at every call
index, and so do the returned float values; hence spawn angles, speeds and
sizes derived from them coincide for the same sequence of beat events. -/
theorem rand_float_deterministic (s t : ℕ → ℕ) (hs : IsRandRun s) (ht : IsRandRun t) :
    ∀ n, s n = t n ∧ randFloatVal (s n) = randFloatVal (t n) := by
  intro n
  induction n with
  | zero =>
    rw [hs.1, ht.1]
    exact ⟨rfl, rfl⟩
  | succ n ih =>
    have h : s (n + 1) = t (n + 1) := by rw [hs.2 n, ht.2 n, ih.1]
    exact ⟨h, by rw [h]⟩

/-- C10 witness: the determinism theorem applied to the canonical iterated
run (both hypotheses discharged concretely) at call index 3. -/
theorem rand_float_deterministic_witness :
    randRunFn 3 = randRunFn 3 ∧ randFloatVal (randRunFn 3) = randFloatVal (randRunFn 3) :=
  rand_float_deterministic randRunFn randRunFn
    ⟨rfl, fun n => Function.iterate_succ_apply' randStep n 12345⟩
    ⟨rfl, fun n => Function.iterate_succ_apply' randStep n 12345⟩ 3
